import Mathlib

/-!
Verification of the DNA-classification data-loading utilities
(`utils/data_utils.py`): the k-mer transform `return_kmer`, the DNA-alphabet
predicate `is_dna_sequence`, the `HF_dataset` adapter, and the per-file CSV
processing performed by `val_dataset_generator`.

Strings from the source are embedded as `List Char`; CSV cell values as
`PyVal` (a string or an integer, the two value shapes the code manipulates);
a loaded CSV file as `DataFrame` (column name / column values pairs, all
columns of equal length, as pandas guarantees); failures (`KeyError`,
`TypeError`) as `Except PyErr`.  Python indexing `xs[i]` with a possibly
negative `i` is embedded as `pyIndex`.
-/

/-- A CSV cell value as the code manipulates it: a string or an integer. -/
inductive PyVal where
  | str : List Char → PyVal
  | int : Int → PyVal
deriving DecidableEq, Repr

/-- The exceptions the embedded code can raise: a missing-column `KeyError`
or a `TypeError` from applying string/integer operations to the wrong shape. -/
inductive PyErr where
  | keyError : String → PyErr
  | typeError : PyErr
deriving DecidableEq, Repr

/-- A loaded CSV file, as `pandas.read_csv` produces it: named columns, all
of the same length `nrows`. -/
structure DataFrame where
  nrows : Nat
  cols : List (String × List PyVal)
  hcols : ∀ c ∈ cols, c.2.length = nrows

/-- `df.columns` of pandas: the list of column names, in order. -/
def DataFrame.columns (df : DataFrame) : List String :=
  df.cols.map Prod.fst

/-- `df[name]`: the first column with the given name, if any. -/
def DataFrame.getCol (df : DataFrame) (name : String) : Option (List PyVal) :=
  (df.cols.find? (fun c => c.1 == name)).map Prod.snd

/-- The external tokenizer: `batch_encode_plus` maps a list of (k-mer)
strings to a pair of parallel arrays (`input_ids`, `attention_mask`). -/
structure Tokenizer where
  batch_encode_plus : List (List Char) → List (List Int) × List (List Int)

/-- `HF_dataset.__init__`: the adapter stores the three arrays unchanged. -/
structure HF_dataset where
  input_ids : List (List Int)
  attention_masks : List (List Int)
  labels : List Int
deriving DecidableEq, Repr

/-- `HF_dataset.__len__`: the length of the stored labels array. -/
def HF_dataset.len (d : HF_dataset) : Nat :=
  d.labels.length

/-- The record returned by `HF_dataset.__getitem__`: a mapping with exactly
the keys `input_ids`, `attention_mask`, `labels`. -/
structure DatasetRecord where
  input_ids : List Int
  attention_mask : List Int
  labels : Int
deriving DecidableEq, Repr

/-- Python sequence indexing `xs[i]` for `i : Int`: a negative index counts
from the end; an index out of `[-len, len)` raises `IndexError` (`none`). -/
def pyIndex (l : List α) (i : Int) : Option α :=
  if i < 0 then
    if 0 ≤ i + (l.length : Int) then l.get? (i + (l.length : Int)).toNat else none
  else l.get? i.toNat

/-- `HF_dataset.__getitem__`: index into the three arrays and build the
three-key record; any out-of-range access raises (`none`). -/
def HF_dataset.getitem (d : HF_dataset) (index : Int) : Option DatasetRecord :=
  match pyIndex d.input_ids index, pyIndex d.attention_masks index,
      pyIndex d.labels index with
  | some a, some b, some c => some ⟨a, b, c⟩
  | _, _, _ => none

/-- The list of K-mers built by the loop in `return_kmer`:
`seq[x : x+K]` for `x` in `range(len(seq) - K + 1)` (an empty range when
`K > len(seq)`, which `len + 1 - K` renders in truncated subtraction). -/
def kmer_list (seq : List Char) (K : Nat) : List (List Char) :=
  (List.range (seq.length + 1 - K)).map (fun x => (seq.drop x).take K)

/-- `return_kmer`: the K-mers joined by single spaces (`" ".join`). -/
def return_kmer (seq : List Char) (K : Nat) : List Char :=
  List.intercalate [' '] (kmer_list seq K)

/-- The valid DNA bases `{"A", "C", "G", "T"}`. -/
def valid_bases : List Char := ['A', 'C', 'G', 'T']

/-- `is_dna_sequence`: every character of `sequence.upper()` is a valid
base.  `str.upper` on the characters at hand is ASCII uppercasing, which is
exactly `Char.toUpper`. -/
def is_dna_sequence (sequence : List Char) : Bool :=
  (sequence.map Char.toUpper).all (fun base => valid_bases.contains base)

/-- The DNA alphabet in both cases, used to state the validator's spec. -/
def dna_chars : List Char := ['A', 'C', 'G', 'T', 'a', 'c', 'g', 't']

/-- Effectful map over a list in the `Except` monad, as the source's
row loop: stop at the first raised exception. -/
def mapME (f : α → Except PyErr β) : List α → Except PyErr (List β)
  | [] => .ok []
  | a :: as =>
    match f a with
    | .error e => .error e
    | .ok b =>
      match mapME f as with
      | .error e => .error e
      | .ok bs => .ok (b :: bs)

/-- The body of the row loop in `val_dataset_generator`: for a row
`(seq, label)`, compute `return_kmer(seq, K=kmer_size)` and `label - 1`.
A non-string `seq` or non-integer `label` raises a `TypeError`. -/
def encode_row (kmer_size : Nat) : PyVal × PyVal → Except PyErr (List Char × Int)
  | (.str s, .int n) => .ok (return_kmer s kmer_size, n - 1)
  | (.str _, .str _) => .error .typeError
  | (.int _, _) => .error .typeError

/-- The per-file body of `val_dataset_generator`: pick the label column name
(`"CLASS"` if present, else `"Class"`), read the `"SEQ"` column and the label
column (a missing column raises `KeyError`), run the row loop over their
`zip`, batch-encode the k-mer strings, and wrap the result in `HF_dataset`. -/
def process_file (tok : Tokenizer) (kmer_size : Nat) (df : DataFrame) :
    Except PyErr HF_dataset :=
  let cls := if df.columns.contains "CLASS" then "CLASS" else "Class"
  match df.getCol "SEQ" with
  | none => .error (.keyError "SEQ")
  | some seqCol =>
    match df.getCol cls with
    | none => .error (.keyError cls)
    | some clsCol =>
      match mapME (encode_row kmer_size) (seqCol.zip clsCol) with
      | .error e => .error e
      | .ok pairs =>
        let val_kmers := pairs.map Prod.fst
        let labels_val := pairs.map Prod.snd
        let enc := tok.batch_encode_plus val_kmers
        .ok ⟨enc.1, enc.2, labels_val⟩

/-- `val_dataset_generator` run to completion over the directory listing:
one `process_file` per file, datasets in listing order. -/
def val_dataset_generator (tok : Tokenizer) (kmer_size : Nat)
    (files : List DataFrame) : Except PyErr (List HF_dataset) :=
  mapME (process_file tok kmer_size) files

/-! ### Helper lemmas -/

/-- `pyIndex` with a nonnegative index is plain list lookup. -/
lemma pyIndex_nonneg (l : List α) (i : Int) (h : 0 ≤ i) :
    pyIndex l i = l.get? i.toNat := by
  unfold pyIndex
  rw [if_neg (by omega)]

/-- `pyIndex` outside `[-len, len)` is `none`. -/
lemma pyIndex_none (l : List α) (i : Int)
    (h : i < -(l.length : Int) ∨ (l.length : Int) ≤ i) :
    pyIndex l i = none := by
  unfold pyIndex
  by_cases hneg : i < 0
  · rw [if_pos hneg, if_neg (by omega)]
  · rw [if_neg hneg, List.get?_eq_none.mpr (by omega)]

/-- The single characterising fact about ASCII uppercasing needed for the
validator: a character uppercases into `{A,C,G,T}` iff it is one of the
eight characters `{A,C,G,T,a,c,g,t}`. -/
lemma toUpper_mem_valid_iff (c : Char) :
    Char.toUpper c ∈ valid_bases ↔ c ∈ dna_chars := by
  by_cases h : c.toNat ≥ 97 ∧ c.toNat ≤ 122
  · obtain ⟨n, hn⟩ : ∃ n, c.toNat = n := ⟨_, rfl⟩
    have h1 : 97 ≤ n := hn ▸ h.1
    have h2 : n ≤ 122 := hn ▸ h.2
    have hc : c = Char.ofNat n := hn ▸ (Char.ofNat_toNat c).symm
    subst hc
    interval_cases n <;> decide
  · have htu : Char.toUpper c = c := by
      show (if c.toNat ≥ 97 ∧ c.toNat ≤ 122 then Char.ofNat (c.toNat - 32)
            else c) = c
      exact if_neg h
    rw [htu]
    simp only [valid_bases, dna_chars, List.mem_cons, List.not_mem_nil,
      or_false]
    constructor
    · rintro (rfl | rfl | rfl | rfl) <;> tauto
    · rintro (rfl | rfl | rfl | rfl | rfl | rfl | rfl | rfl)
      · tauto
      · tauto
      · tauto
      · tauto
      · exact absurd (by decide) h
      · exact absurd (by decide) h
      · exact absurd (by decide) h
      · exact absurd (by decide) h

/-- A successful `mapME` preserves the length of the list. -/
lemma mapME_length (f : α → Except PyErr β) (l : List α) (l' : List β)
    (h : mapME f l = .ok l') : l'.length = l.length := by
  induction l generalizing l' with
  | nil =>
    unfold mapME at h
    cases h
    rfl
  | cons a as ih =>
    unfold mapME at h
    cases hfa : f a with
    | error e => rw [hfa] at h; cases h
    | ok b =>
      rw [hfa] at h
      cases hrest : mapME f as with
      | error e => rw [hrest] at h; cases h
      | ok bs =>
        rw [hrest] at h
        cases h
        simp [ih bs hrest]

/-- `mapME` of the row encoder over a typed (string, integer) table is the
pure map: k-mers of the sequences paired with decremented labels. -/
lemma mapME_encode_row (K : Nat) (seqs : List (List Char)) (labs : List Int) :
    mapME (encode_row K) ((seqs.map PyVal.str).zip (labs.map PyVal.int)) =
      .ok ((seqs.zip labs).map (fun r => (return_kmer r.1 K, r.2 - 1))) := by
  induction seqs generalizing labs with
  | nil => rfl
  | cons s ss ih =>
    cases labs with
    | nil => rfl
    | cons n ns =>
      show mapME (encode_row K) ((PyVal.str s, PyVal.int n) ::
        (ss.map PyVal.str).zip (ns.map PyVal.int)) = _
      unfold mapME
      rw [show encode_row K (PyVal.str s, PyVal.int n) =
        .ok (return_kmer s K, n - 1) from rfl, ih]
      rfl

/-- A present column has the common row count. -/
lemma getCol_length (df : DataFrame) (name : String) (col : List PyVal)
    (h : df.getCol name = some col) : col.length = df.nrows := by
  unfold DataFrame.getCol at h
  cases hf : df.cols.find? (fun c => c.1 == name) with
  | none => rw [hf] at h; cases h
  | some c =>
    rw [hf] at h
    cases h
    exact df.hcols c (List.mem_of_find?_eq_some hf)

/-- A column lookup fails exactly when no column has the requested name. -/
lemma getCol_eq_none_iff (df : DataFrame) (name : String) :
    df.getCol name = none ↔ df.columns.contains name = false := by
  unfold DataFrame.getCol DataFrame.columns
  rw [Option.map_eq_none', List.find?_eq_none]
  constructor
  · intro h
    rw [← Bool.not_eq_true, List.contains, List.elem_eq_mem, decide_eq_true_eq]
    intro hmem
    obtain ⟨c, hc, hc1⟩ := List.mem_map.mp hmem
    exact absurd (by simp [hc1]) (h c hc)
  · intro h c hc
    simp only [beq_iff_eq]
    intro h1
    rw [← Bool.not_eq_true, List.contains, List.elem_eq_mem,
      decide_eq_true_eq] at h
    exact h (List.mem_map.mpr ⟨c, hc, h1⟩)

/-- `process_file` on a well-typed table: the dataset holds the batch
encodings of the per-row k-mer strings and the decremented labels. -/
lemma process_file_ok (tok : Tokenizer) (K : Nat) (df : DataFrame)
    (seqs : List (List Char)) (labs : List Int)
    (hseq : df.getCol "SEQ" = some (seqs.map PyVal.str))
    (hcls : df.getCol (if df.columns.contains "CLASS" then "CLASS" else "Class")
              = some (labs.map PyVal.int))
    (hlen : seqs.length = labs.length) :
    process_file tok K df =
      .ok ⟨(tok.batch_encode_plus (seqs.map (fun s => return_kmer s K))).1,
           (tok.batch_encode_plus (seqs.map (fun s => return_kmer s K))).2,
           labs.map (fun l => l - 1)⟩ := by
  unfold process_file
  simp only [hseq, hcls, mapME_encode_row]
  have h1 : ((seqs.zip labs).map (fun r => (return_kmer r.1 K, r.2 - 1))).map
      Prod.fst = seqs.map (fun s => return_kmer s K) := by
    rw [List.map_map]
    have : (Prod.fst ∘ fun r : List Char × Int =>
        (return_kmer r.1 K, r.2 - 1)) = (fun s => return_kmer s K) ∘ Prod.fst := rfl
    rw [this, ← List.map_map, List.map_fst_zip _ _ (le_of_eq hlen)]
  have h2 : ((seqs.zip labs).map (fun r => (return_kmer r.1 K, r.2 - 1))).map
      Prod.snd = labs.map (fun l => l - 1) := by
    rw [List.map_map]
    have : (Prod.snd ∘ fun r : List Char × Int =>
        (return_kmer r.1 K, r.2 - 1)) = (fun l => l - 1) ∘ Prod.snd := rfl
    rw [this, ← List.map_map, List.map_snd_zip _ _ (le_of_eq hlen.symm)]
  rw [h1, h2]

/-! ### Claim theorems -/

/-- C1: `return_kmer(s, K)` is the single-space join of the substrings
`s[x : x+K]` for `x = 0 .. len(s)-K`; when `1 ≤ K ≤ len(s)` there are
exactly `len(s) - K + 1` tokens, each of length `K`, the `x`-th being the
contiguous substring of `s` at offset `x`; when `K > len(s)` the result is
the empty string. -/
theorem return_kmer_spec (s : List Char) (K : Nat) (hK : 1 ≤ K) :
    return_kmer s K = List.intercalate [' '] (kmer_list s K)
    ∧ (K ≤ s.length →
        return_kmer s K = List.intercalate [' ']
          ((List.range (s.length - K + 1)).map (fun x => (s.drop x).take K))
        ∧ (kmer_list s K).length = s.length - K + 1
        ∧ (∀ t ∈ kmer_list s K, t.length = K)
        ∧ (∀ x, x < s.length - K + 1 →
            (kmer_list s K).get? x = some ((s.drop x).take K)))
    ∧ (s.length < K → return_kmer s K = []) := by
  refine ⟨rfl, ?_, ?_⟩
  · intro hle
    have e : s.length + 1 - K = s.length - K + 1 := by omega
    refine ⟨?_, ?_, ?_, ?_⟩
    · unfold return_kmer kmer_list
      rw [e]
    · unfold kmer_list
      rw [e, List.length_map, List.length_range]
    · intro t ht
      unfold kmer_list at ht
      obtain ⟨x, hx, rfl⟩ := List.mem_map.mp ht
      rw [List.mem_range] at hx
      simp only [List.length_take, List.length_drop]
      omega
    · intro x hx
      unfold kmer_list
      rw [List.get?_map, List.get?_range (by omega), Option.map_some']
  · intro hlt
    unfold return_kmer kmer_list
    rw [show s.length + 1 - K = 0 from by omega]
    rfl

/-- The spec's example sequence `"ATCGATCG"`. -/
def seq_ex : List Char := ['A', 'T', 'C', 'G', 'A', 'T', 'C', 'G']

/-- Witness for C1 at the spec's example, `return_kmer("ATCGATCG", K=3)`. -/
theorem return_kmer_spec_witness :
    1 ≤ 3
    ∧ (return_kmer seq_ex 3 = List.intercalate [' '] (kmer_list seq_ex 3)
      ∧ (3 ≤ seq_ex.length →
          return_kmer seq_ex 3 = List.intercalate [' ']
            ((List.range (seq_ex.length - 3 + 1)).map
              (fun x => (seq_ex.drop x).take 3))
          ∧ (kmer_list seq_ex 3).length = seq_ex.length - 3 + 1
          ∧ (∀ t ∈ kmer_list seq_ex 3, t.length = 3)
          ∧ (∀ x, x < seq_ex.length - 3 + 1 →
              (kmer_list seq_ex 3).get? x = some ((seq_ex.drop x).take 3)))
      ∧ (seq_ex.length < 3 → return_kmer seq_ex 3 = [])) :=
  ⟨by decide, return_kmer_spec seq_ex 3 (by decide)⟩

/-- C6: `is_dna_sequence(s)` is true iff every character of `s` uppercases
into `{A,C,G,T}`, equivalently iff every character of `s` lies in
`{A,C,G,T,a,c,g,t}`; the empty string validates true. -/
theorem is_dna_sequence_spec :
    (∀ s : List Char,
      (is_dna_sequence s = true ↔ ∀ c ∈ s, Char.toUpper c ∈ valid_bases)
      ∧ (is_dna_sequence s = true ↔ ∀ c ∈ s, c ∈ dna_chars))
    ∧ is_dna_sequence [] = true := by
  have key : ∀ s : List Char,
      is_dna_sequence s = true ↔ ∀ c ∈ s, Char.toUpper c ∈ valid_bases := by
    intro s
    unfold is_dna_sequence
    rw [List.all_eq_true]
    constructor
    · intro h c hc
      exact List.elem_iff.mp (h (Char.toUpper c) (List.mem_map.mpr ⟨c, hc, rfl⟩))
    · intro h b hb
      obtain ⟨c, hc, rfl⟩ := List.mem_map.mp hb
      exact List.elem_eq_true_of_mem (h c hc)
  refine ⟨fun s => ⟨key s, ?_⟩, rfl⟩
  rw [key s]
  constructor
  · intro h c hc
    exact (toUpper_mem_valid_iff c).mp (h c hc)
  · intro h c hc
    exact (toUpper_mem_valid_iff c).mpr (h c hc)

/-- Witness for C6: instantiating the equivalence at a concrete mixed-case
string. -/
theorem is_dna_sequence_spec_witness :
    ∀ c ∈ (['A', 't', 'C', 'g'] : List Char), c ∈ dna_chars :=
  (is_dna_sequence_spec.1 ['A', 't', 'C', 'g']).2.mp (by decide)

/-- C7: on aligned arrays, `__getitem__` at an in-range index `0 ≤ i < len`
returns the three-key record whose fields are the `i`-th rows of the three
arrays supplied at construction. -/
theorem getitem_in_range_spec (ids masks : List (List Int))
    (labels : List Int) (h1 : ids.length = labels.length)
    (h2 : masks.length = labels.length) (i : Int) (h0 : 0 ≤ i)
    (hi : i < ((HF_dataset.mk ids masks labels).len : Int)) :
    ∃ r : DatasetRecord,
      (HF_dataset.mk ids masks labels).getitem i = some r
      ∧ ids.get? i.toNat = some r.input_ids
      ∧ masks.get? i.toNat = some r.attention_mask
      ∧ labels.get? i.toNat = some r.labels := by
  simp only [HF_dataset.len] at hi
  have hlab : i.toNat < labels.length := by omega
  have hids : i.toNat < ids.length := by omega
  have hmasks : i.toNat < masks.length := by omega
  refine ⟨⟨ids.get ⟨i.toNat, hids⟩, masks.get ⟨i.toNat, hmasks⟩,
    labels.get ⟨i.toNat, hlab⟩⟩, ?_, ?_, ?_, ?_⟩
  · simp only [HF_dataset.getitem]
    rw [pyIndex_nonneg _ _ h0, pyIndex_nonneg _ _ h0, pyIndex_nonneg _ _ h0]
    simp only [List.get?_eq_get hids, List.get?_eq_get hmasks,
      List.get?_eq_get hlab]
  · exact List.get?_eq_get hids
  · exact List.get?_eq_get hmasks
  · exact List.get?_eq_get hlab

/-- Witness for C7 at a one-row dataset and index 0. -/
theorem getitem_in_range_spec_witness :
    ([[1, 2]] : List (List Int)).length = ([7] : List Int).length
    ∧ ([[3, 4]] : List (List Int)).length = ([7] : List Int).length
    ∧ (0 : Int) ≤ 0
    ∧ (0 : Int) < ((HF_dataset.mk [[1, 2]] [[3, 4]] [7]).len : Int)
    ∧ ∃ r : DatasetRecord,
        (HF_dataset.mk [[1, 2]] [[3, 4]] [7]).getitem 0 = some r
        ∧ ([[1, 2]] : List (List Int)).get? (0 : Int).toNat = some r.input_ids
        ∧ ([[3, 4]] : List (List Int)).get? (0 : Int).toNat = some r.attention_mask
        ∧ ([7] : List Int).get? (0 : Int).toNat = some r.labels :=
  ⟨rfl, rfl, by decide, by decide,
    getitem_in_range_spec [[1, 2]] [[3, 4]] [7] rfl rfl 0 (by decide) (by decide)⟩

/-- C8 counterexample: it is not the case that every index outside
`0 ≤ i < len` fails — the Python-style index `-1` on a one-row dataset
returns the last record instead of raising. -/
theorem getitem_out_of_range_counterexample :
    ¬ (∀ (d : HF_dataset) (i : Int),
        (i < 0 ∨ (d.len : Int) ≤ i) → d.getitem i = none) := by
  intro h
  have := h (HF_dataset.mk [[1]] [[1]] [5]) (-1) (by decide)
  exact absurd this (by decide)

/-- C8 amended: `__getitem__` fails (with `IndexError`) exactly on the
indices Python rejects, those outside `[-len, len)`; indices in `[-len, 0)`
are interpreted from the end of the arrays. -/
theorem getitem_out_of_range_amended (d : HF_dataset) (i : Int)
    (h : i < -(d.len : Int) ∨ (d.len : Int) ≤ i) :
    d.getitem i = none := by
  unfold HF_dataset.getitem
  rw [pyIndex_none d.labels i (by simpa [HF_dataset.len] using h)]
  cases pyIndex d.input_ids i <;> cases pyIndex d.attention_masks i <;> rfl

/-- Witness for the amended C8 at index `1` of a one-row dataset. -/
theorem getitem_out_of_range_amended_witness :
    ((1 : Int) < -((HF_dataset.mk [[1]] [[1]] [5]).len : Int)
      ∨ ((HF_dataset.mk [[1]] [[1]] [5]).len : Int) ≤ 1)
    ∧ (HF_dataset.mk [[1]] [[1]] [5]).getitem 1 = none :=
  ⟨by decide, getitem_out_of_range_amended (HF_dataset.mk [[1]] [[1]] [5]) 1
    (by decide)⟩

/-- C9: `__len__` is the length of the labels array supplied at
construction, whatever the lengths of the id and mask arrays. -/
theorem len_eq_labels_length (ids masks : List (List Int))
    (labels : List Int) :
    (HF_dataset.mk ids masks labels).len = labels.length := rfl

/-- C2: every processed row stores the source label decremented by one. -/
theorem labels_zero_indexed (tok : Tokenizer) (K : Nat)
    (seqs : List (List Char)) (labs : List Int) (df : DataFrame)
    (hdf : df.cols = [("SEQ", seqs.map PyVal.str),
      ("Class", labs.map PyVal.int)])
    (hlen : seqs.length = labs.length) :
    ∃ d, process_file tok K df = .ok d
      ∧ d.labels = labs.map (fun l => l - 1) := by
  have hcolumns : df.columns = ["SEQ", "Class"] := by
    rw [DataFrame.columns, hdf]
    rfl
  have hseq : df.getCol "SEQ" = some (seqs.map PyVal.str) := by
    rw [DataFrame.getCol, hdf]
    rfl
  have hcls : df.getCol
      (if df.columns.contains "CLASS" then "CLASS" else "Class")
      = some (labs.map PyVal.int) := by
    rw [hcolumns]
    show df.getCol "Class" = _
    rw [DataFrame.getCol, hdf]
    rfl
  exact ⟨_, process_file_ok tok K df seqs labs hseq hcls hlen, rfl⟩

/-- A concrete tokenizer for witnesses: one id row and one mask row per
input string. -/
def tok0 : Tokenizer :=
  ⟨fun ks => (ks.map (fun k => [(k.length : Int)]), ks.map (fun _ => [1]))⟩

/-- The spec's example CSV: rows ("ATCGATCG", 2), ("GGCCTTAA", 1), label
column named "Class". -/
def df_ex : DataFrame :=
  ⟨2, [("SEQ", [PyVal.str ['A', 'T', 'C', 'G', 'A', 'T', 'C', 'G'],
                PyVal.str ['G', 'G', 'C', 'C', 'T', 'T', 'A', 'A']]),
       ("Class", [PyVal.int 2, PyVal.int 1])], by decide⟩

/-- Witness for C2 at the spec's example CSV: the stored labels are
`[2, 1].map (· - 1) = [1, 0]`. -/
theorem labels_zero_indexed_witness :
    df_ex.cols = [("SEQ", ([['A', 'T', 'C', 'G', 'A', 'T', 'C', 'G'],
        ['G', 'G', 'C', 'C', 'T', 'T', 'A', 'A']] : List (List Char)).map
          PyVal.str),
      ("Class", ([2, 1] : List Int).map PyVal.int)]
    ∧ ([['A', 'T', 'C', 'G', 'A', 'T', 'C', 'G'],
        ['G', 'G', 'C', 'C', 'T', 'T', 'A', 'A']] : List (List Char)).length
        = ([2, 1] : List Int).length
    ∧ ∃ d, process_file tok0 3 df_ex = .ok d
        ∧ d.labels = ([2, 1] : List Int).map (fun l => l - 1) :=
  ⟨rfl, rfl, labels_zero_indexed tok0 3
    [['A', 'T', 'C', 'G', 'A', 'T', 'C', 'G'],
     ['G', 'G', 'C', 'C', 'T', 'T', 'A', 'A']] [2, 1] df_ex rfl rfl⟩

/-- C10: the pipeline never validates the DNA alphabet: `return_kmer` is a
total function on arbitrary strings, `process_file` never consults
`is_dna_sequence`, and even a table whose every sequence fails the
validator is k-merised, tokenized and wrapped into the dataset exactly like
valid rows — no row is rejected or flagged. -/
theorem no_dna_validation (tok : Tokenizer) (K : Nat)
    (seqs : List (List Char)) (labs : List Int) (df : DataFrame)
    (hdf : df.cols = [("SEQ", seqs.map PyVal.str),
      ("Class", labs.map PyVal.int)])
    (hlen : seqs.length = labs.length)
    (hinvalid : ∀ s ∈ seqs, is_dna_sequence s = false) :
    process_file tok K df =
      .ok ⟨(tok.batch_encode_plus (seqs.map (fun s => return_kmer s K))).1,
           (tok.batch_encode_plus (seqs.map (fun s => return_kmer s K))).2,
           labs.map (fun l => l - 1)⟩ := by
  have hcolumns : df.columns = ["SEQ", "Class"] := by
    rw [DataFrame.columns, hdf]
    rfl
  have hseq : df.getCol "SEQ" = some (seqs.map PyVal.str) := by
    rw [DataFrame.getCol, hdf]
    rfl
  have hcls : df.getCol
      (if df.columns.contains "CLASS" then "CLASS" else "Class")
      = some (labs.map PyVal.int) := by
    rw [hcolumns]
    show df.getCol "Class" = _
    rw [DataFrame.getCol, hdf]
    rfl
  exact process_file_ok tok K df seqs labs hseq hcls hlen

/-- A CSV row whose sequence is not DNA at all. -/
def df_bad : DataFrame :=
  ⟨1, [("SEQ", [PyVal.str ['X', '!', 'Z', 'Q']]),
       ("Class", [PyVal.int 3])], by decide⟩

/-- Witness for C10: the row `("X!ZQ", 3)` fails the validator yet is
processed and included like any other row. -/
theorem no_dna_validation_witness :
    df_bad.cols = [("SEQ", ([['X', '!', 'Z', 'Q']] : List (List Char)).map
        PyVal.str),
      ("Class", ([3] : List Int).map PyVal.int)]
    ∧ ([['X', '!', 'Z', 'Q']] : List (List Char)).length
        = ([3] : List Int).length
    ∧ (∀ s ∈ ([['X', '!', 'Z', 'Q']] : List (List Char)),
        is_dna_sequence s = false)
    ∧ process_file tok0 3 df_bad =
        .ok ⟨(tok0.batch_encode_plus
                (([['X', '!', 'Z', 'Q']] : List (List Char)).map
                  (fun s => return_kmer s 3))).1,
             (tok0.batch_encode_plus
                (([['X', '!', 'Z', 'Q']] : List (List Char)).map
                  (fun s => return_kmer s 3))).2,
             ([3] : List Int).map (fun l => l - 1)⟩ :=
  ⟨rfl, rfl, by decide,
    no_dna_validation tok0 3 [['X', '!', 'Z', 'Q']] [3] df_bad rfl rfl
      (by decide)⟩

/-- C4: `process_file` raises (yields no dataset) on a table lacking a
`"SEQ"` column or lacking both `"CLASS"` and `"Class"`; when both label
spellings are present, `"CLASS"` is the column used for the labels. -/
theorem missing_column_fails :
    (∀ (tok : Tokenizer) (K : Nat) (df : DataFrame),
      (df.columns.contains "SEQ" = false
        ∨ (df.columns.contains "CLASS" = false
            ∧ df.columns.contains "Class" = false)) →
      ∃ e, process_file tok K df = .error e)
    ∧ (∀ (tok : Tokenizer) (K : Nat) (df : DataFrame)
        (seqs : List (List Char)) (l1 l2 : List Int),
        df.cols = [("SEQ", seqs.map PyVal.str), ("CLASS", l1.map PyVal.int),
          ("Class", l2.map PyVal.int)] →
        seqs.length = l1.length →
        process_file tok K df =
          .ok ⟨(tok.batch_encode_plus
                  (seqs.map (fun s => return_kmer s K))).1,
               (tok.batch_encode_plus
                  (seqs.map (fun s => return_kmer s K))).2,
               l1.map (fun l => l - 1)⟩) := by
  constructor
  · intro tok K df h
    rcases h with h | ⟨h1, h2⟩
    · have hseq : df.getCol "SEQ" = none := (getCol_eq_none_iff df "SEQ").mpr h
      simp only [process_file, hseq]
      exact ⟨_, rfl⟩
    · have hcls : df.getCol
          (if df.columns.contains "CLASS" then "CLASS" else "Class") = none := by
        rw [h1]
        show df.getCol "Class" = none
        exact (getCol_eq_none_iff df "Class").mpr h2
      cases hseq : df.getCol "SEQ" with
      | none =>
        simp only [process_file, hseq]
        exact ⟨_, rfl⟩
      | some seqCol =>
        simp only [process_file, hseq, hcls]
        exact ⟨_, rfl⟩
  · intro tok K df seqs l1 l2 hdf hlen
    have hcolumns : df.columns = ["SEQ", "CLASS", "Class"] := by
      rw [DataFrame.columns, hdf]
      rfl
    have hseq : df.getCol "SEQ" = some (seqs.map PyVal.str) := by
      rw [DataFrame.getCol, hdf]
      rfl
    have hcls : df.getCol
        (if df.columns.contains "CLASS" then "CLASS" else "Class")
        = some (l1.map PyVal.int) := by
      rw [hcolumns]
      show df.getCol "CLASS" = _
      rw [DataFrame.getCol, hdf]
      rfl
    exact process_file_ok tok K df seqs l1 hseq hcls hlen

/-- A CSV with no `"SEQ"` column. -/
def df_noseq : DataFrame :=
  ⟨1, [("Class", [PyVal.int 1])], by decide⟩

/-- A CSV carrying both `"CLASS"` and `"Class"` columns. -/
def df_both : DataFrame :=
  ⟨1, [("SEQ", [PyVal.str ['A', 'C', 'G']]),
       ("CLASS", [PyVal.int 5]), ("Class", [PyVal.int 9])], by decide⟩

/-- Witness for C4: a table without `"SEQ"` raises, and with both label
spellings present the labels come from `"CLASS"` (5 ↦ 4), not `"Class"`. -/
theorem missing_column_fails_witness :
    df_noseq.columns.contains "SEQ" = false
    ∧ (∃ e, process_file tok0 3 df_noseq = .error e)
    ∧ df_both.cols = [("SEQ", ([['A', 'C', 'G']] : List (List Char)).map
          PyVal.str),
        ("CLASS", ([5] : List Int).map PyVal.int),
        ("Class", ([9] : List Int).map PyVal.int)]
    ∧ process_file tok0 3 df_both =
        .ok ⟨(tok0.batch_encode_plus (([['A', 'C', 'G']] : List (List Char)).map
                (fun s => return_kmer s 3))).1,
             (tok0.batch_encode_plus (([['A', 'C', 'G']] : List (List Char)).map
                (fun s => return_kmer s 3))).2,
             ([5] : List Int).map (fun l => l - 1)⟩ :=
  ⟨rfl, missing_column_fails.1 tok0 3 df_noseq (Or.inl rfl),
   rfl, missing_column_fails.2 tok0 3 df_both [['A', 'C', 'G']] [5] [9]
     rfl rfl⟩

/-- C3: assuming the tokenizer returns one id row and one mask row per
input string, any dataset produced by `process_file` has its three parallel
arrays of equal count, each equal to the row count of the source CSV. -/
theorem dataset_arrays_aligned (tok : Tokenizer) (K : Nat) (df : DataFrame)
    (d : HF_dataset)
    (htok : ∀ ks, (tok.batch_encode_plus ks).1.length = ks.length
              ∧ (tok.batch_encode_plus ks).2.length = ks.length)
    (hok : process_file tok K df = .ok d) :
    d.input_ids.length = df.nrows
    ∧ d.attention_masks.length = df.nrows
    ∧ d.labels.length = df.nrows := by
  cases hseq : df.getCol "SEQ" with
  | none =>
    simp only [process_file, hseq] at hok
    cases hok
  | some seqCol =>
    cases hcls : df.getCol
        (if df.columns.contains "CLASS" then "CLASS" else "Class") with
    | none =>
      simp only [process_file, hseq, hcls] at hok
      cases hok
    | some clsCol =>
      cases hmap : mapME (encode_row K) (seqCol.zip clsCol) with
      | error e =>
        simp only [process_file, hseq, hcls, hmap] at hok
        cases hok
      | ok pairs =>
        simp only [process_file, hseq, hcls, hmap] at hok
        cases hok
        have hzip : (seqCol.zip clsCol).length = df.nrows := by
          rw [List.length_zip, getCol_length df _ seqCol hseq,
            getCol_length df _ clsCol hcls, Nat.min_self]
        have hp : pairs.length = df.nrows := by
          rw [mapME_length _ _ _ hmap, hzip]
        refine ⟨?_, ?_, ?_⟩
        · show (tok.batch_encode_plus (pairs.map Prod.fst)).1.length = df.nrows
          rw [(htok (pairs.map Prod.fst)).1, List.length_map, hp]
        · show (tok.batch_encode_plus (pairs.map Prod.fst)).2.length = df.nrows
          rw [(htok (pairs.map Prod.fst)).2, List.length_map, hp]
        · show (pairs.map Prod.snd).length = df.nrows
          rw [List.length_map, hp]

/-- Witness for C3 at `tok0` and the spec's example CSV (two rows). -/
theorem dataset_arrays_aligned_witness :
    (∀ ks, (tok0.batch_encode_plus ks).1.length = ks.length
        ∧ (tok0.batch_encode_plus ks).2.length = ks.length)
    ∧ process_file tok0 3 df_ex =
        .ok (HF_dataset.mk [[23], [23]] [[1], [1]] [1, 0])
    ∧ (HF_dataset.mk [[23], [23]] [[1], [1]] [1, 0]).input_ids.length
        = df_ex.nrows
    ∧ (HF_dataset.mk [[23], [23]] [[1], [1]] [1, 0]).attention_masks.length
        = df_ex.nrows
    ∧ (HF_dataset.mk [[23], [23]] [[1], [1]] [1, 0]).labels.length
        = df_ex.nrows :=
  have htok : ∀ ks, (tok0.batch_encode_plus ks).1.length = ks.length
      ∧ (tok0.batch_encode_plus ks).2.length = ks.length :=
    fun _ => ⟨List.length_map _ _, List.length_map _ _⟩
  ⟨htok, rfl,
    dataset_arrays_aligned tok0 3 df_ex
      (HF_dataset.mk [[23], [23]] [[1], [1]] [1, 0]) htok rfl⟩

/-- C5: over a directory whose files all process successfully, the
generator yields exactly one dataset per file, in directory-listing
order. -/
theorem one_dataset_per_file (tok : Tokenizer) (K : Nat)
    (files : List DataFrame)
    (h : ∀ df ∈ files, ∃ d, process_file tok K df = .ok d) :
    ∃ l, val_dataset_generator tok K files = .ok l
      ∧ l.length = files.length
      ∧ ∀ i, i < files.length →
          ∃ df d, files.get? i = some df ∧ l.get? i = some d
            ∧ process_file tok K df = .ok d := by
  unfold val_dataset_generator
  induction files with
  | nil => exact ⟨[], rfl, rfl, fun i hi => absurd hi (by simp)⟩
  | cons f fs ih =>
    obtain ⟨d, hd⟩ := h f (by simp)
    obtain ⟨l, hl, hlen, hget⟩ := ih (fun df hdf => h df (by simp [hdf]))
    refine ⟨d :: l, ?_, ?_, ?_⟩
    · unfold mapME
      rw [hd, hl]
    · simp [hlen]
    · intro i hi
      cases i with
      | zero => exact ⟨f, d, rfl, rfl, hd⟩
      | succ j =>
        obtain ⟨df, d', h1, h2, h3⟩ := hget j (by simpa using hi)
        exact ⟨df, d', h1, h2, h3⟩

/-- Witness for C5: a directory of two CSV files yields exactly two
datasets, in listing order. -/
theorem one_dataset_per_file_witness :
    (∀ df ∈ [df_ex, df_both], ∃ d, process_file tok0 3 df = .ok d)
    ∧ ∃ l, val_dataset_generator tok0 3 [df_ex, df_both] = .ok l
        ∧ l.length = [df_ex, df_both].length
        ∧ ∀ i, i < [df_ex, df_both].length →
            ∃ df d, [df_ex, df_both].get? i = some df ∧ l.get? i = some d
              ∧ process_file tok0 3 df = .ok d :=
  have h : ∀ df ∈ [df_ex, df_both], ∃ d, process_file tok0 3 df = .ok d := by
    intro df hdf
    simp only [List.mem_cons, List.not_mem_nil, or_false] at hdf
    rcases hdf with rfl | rfl
    · exact ⟨_, rfl⟩
    · exact ⟨_, rfl⟩
  ⟨h, one_dataset_per_file tok0 3 [df_ex, df_both] h⟩
